import Mathlib

/-!
Verification of the signalfd subsystem of the nix crate
(`src/sys/signalfd.rs`): the fixed-layout 128-byte signal record, the
read/classify protocol of `SignalFd::read_signal`, the iterator step, the
drop path, `set_mask`, and the projection into the generic siginfo shape.

Machine integers are modelled as `Nat` (unsigned) and `Int` (signed, with
explicit two's-complement reinterpretation where the code casts). Byte
buffers are functions `Nat → Nat`; a byte read from a `u8` buffer is taken
modulo 256. The boundary primitives (`unistd::read`, `unistd::close`, the
`signalfd` syscall) are external collaborators: their outcomes are
universally quantified inputs to the functions that consume them.
-/

namespace Signalfd

/-- Wire size of one signalfd record: `pub const SIGINFO_SIZE: usize = 128`. -/
def SIGINFO_SIZE : Nat := 128

/-- Padding constant: `pub const SIGINFO_PADDING: usize = 48`. -/
def SIGINFO_PADDING : Nat := 48

/-- Linux errno value for EAGAIN (would-block). -/
def EAGAIN : Nat := 11

/-- The nix error type as used by this module: an OS error carrying an
errno (`Error::Sys(Errno)`), or the non-syscall variant. Only
`Sys(EAGAIN)` is distinguished by the code under study. -/
inductive Error where
  | Sys : Nat → Error
  | InvalidPath : Error
deriving DecidableEq, Repr

/-- The packed record layout `struct siginfo` (repr(C, packed)): sixteen
fixed-width fields, in declaration order. `u32`/`u64` fields are `Nat`,
`i32` fields are `Int`. -/
structure siginfo where
  ssi_signo : Nat
  ssi_errno : Int
  ssi_code : Int
  ssi_pid : Nat
  ssi_uid : Nat
  ssi_fd : Int
  ssi_tid : Nat
  ssi_band : Nat
  ssi_overrun : Nat
  ssi_trapno : Nat
  ssi_status : Int
  ssi_int : Int
  ssi_ptr : Nat
  ssi_utime : Nat
  ssi_stime : Nat
  ssi_addr : Nat
deriving DecidableEq, Repr

/-- Byte widths of the sixteen fields of `siginfo`, in declaration order
(twelve 32-bit fields, four 64-bit fields). With `repr(C, packed)` the
in-memory size of the struct is exactly the sum of these widths. -/
def siginfoFieldSizes : List Nat := [4, 4, 4, 4, 4, 4, 4, 4, 4, 4, 4, 4, 8, 8, 8, 8]

/-- `mem::size_of::<siginfo>()` for the packed struct. -/
def sizeOfSiginfo : Nat := siginfoFieldSizes.sum

/-- Little-endian read of `n` bytes from `buf` starting at `off`. Each
byte is reduced modulo 256, matching the `u8` element type. -/
def readLE (buf : Nat → Nat) (off : Nat) : Nat → Nat
  | 0 => 0
  | n + 1 => buf off % 256 + 256 * readLE buf (off + 1) n

/-- Reinterpret a 32-bit unsigned value as a two's-complement `i32`
(the meaning of the raw bytes for the `i32` fields and of `as c_int` on a
`u32`). -/
def toI32 (x : Nat) : Int :=
  if x < 2 ^ 31 then (x : Int) else (x : Int) - 2 ^ 32

/-- Reinterpret an `i32` value back as its 32-bit unsigned bit pattern. -/
def u32OfI32 (v : Int) : Nat := (v % (2 ^ 32 : Int)).toNat

/-- Decoding of the first `sizeOfSiginfo` (= 80) bytes of the read buffer
into a `siginfo`, exactly as `mem::transmute_copy::<[u8; 128], siginfo>`
does for the packed little-endian layout: consecutive fields at byte
offsets 0,4,8,...,72. -/
def decode (buf : Nat → Nat) : siginfo where
  ssi_signo := readLE buf 0 4
  ssi_errno := toI32 (readLE buf 4 4)
  ssi_code := toI32 (readLE buf 8 4)
  ssi_pid := readLE buf 12 4
  ssi_uid := readLE buf 16 4
  ssi_fd := toI32 (readLE buf 20 4)
  ssi_tid := readLE buf 24 4
  ssi_band := readLE buf 28 4
  ssi_overrun := readLE buf 32 4
  ssi_trapno := readLE buf 36 4
  ssi_status := toI32 (readLE buf 40 4)
  ssi_int := toI32 (readLE buf 44 4)
  ssi_ptr := readLE buf 48 8
  ssi_utime := readLE buf 56 8
  ssi_stime := readLE buf 64 8
  ssi_addr := readLE buf 72 8

/-- Outcome of `SignalFd::read_signal`: `Ok(Some(_))`, `Ok(None)`,
`Err(_)`, or the `unreachable!("partial read on signalfd")` panic. -/
inductive ReadSignalResult where
  | ok : Option siginfo → ReadSignalResult
  | err : Error → ReadSignalResult
  | panicked : ReadSignalResult
deriving DecidableEq, Repr

/-- `SignalFd::read_signal`, as a function of the outcome of the one call
to `unistd::read(self.0, &mut buffer)`: `readResult` is the returned byte
count or error, `buf` the buffer contents after the call. Mirrors the
four-armed match of the source. -/
def read_signal (readResult : Except Error Nat) (buf : Nat → Nat) : ReadSignalResult :=
  match readResult with
  | .ok n => if n = SIGINFO_SIZE then .ok (some (decode buf)) else .panicked
  | .error e => if e = Error.Sys EAGAIN then .ok none else .err e

/-- `<SignalFd as Iterator>::next`, as a function of the same underlying
read outcome that its internal `read_signal` call sees. `none` of the
outer option stands for a propagated panic; `some r` is the value the
caller receives. -/
def next (readResult : Except Error Nat) (buf : Nat → Nat) : Option (Option siginfo) :=
  match read_signal readResult buf with
  | .ok (some sig) => some (some sig)
  | .ok none => some none
  | .err _ => some none
  | .panicked => none

/-- The resource handle `pub struct SignalFd(RawFd)`. -/
structure SignalFd where
  fd : Int
deriving DecidableEq, Repr

/-- `CREATE_NEW_FD`, the sentinel passed to the syscall to request a fresh
descriptor. -/
def CREATE_NEW_FD : Int := -1

/-- `SignalFd::set_mask`: calls the `signalfd` syscall on the stored
descriptor `self.0` with the new mask and empty flags, and maps a
successful result to `()`. `syscall` is the boundary primitive, applied
to the descriptor argument the code passes; the result records the
caller-visible value, the handle after the call, and the descriptor
argument that was passed to the syscall. -/
def set_mask (s : SignalFd) (syscall : Int → Except Error Int) :
    Except Error Unit × SignalFd × Int :=
  ((syscall s.fd).map (fun _ => ()), s, s.fd)

/-- `<SignalFd as Drop>::drop`: `let _ = unistd::close(self.0);` — one
close call on the owned descriptor, its outcome discarded. `closeResult`
is the outcome of that close; the result records the (unit) value the
drop produces and the list of descriptors close was invoked on. -/
def dropFd (s : SignalFd) (closeResult : Except Error Unit) : Unit × List Int :=
  ((), [s.fd])

/-- The generic signal-information shape `sys::signal::signal::siginfo`.
Modelled from the spec: the target type of the record conversion is not
under src/; §4.5 gives its fields as signal number, errno, code, sender
pid, sender uid, exit status (`c_int`/`pid_t`/`uid_t`, i.e. `i32` except
the unsigned `uid_t`). -/
structure signal_siginfo where
  si_signo : Int
  si_errno : Int
  si_code : Int
  pid : Int
  uid : Nat
  status : Int
deriving DecidableEq, Repr

/-- `impl Into<signal_siginfo> for siginfo`: copies the six retained
fields with the source's casts (`u32 as c_int` and `u32 as pid_t` are the
wrapping reinterpretation `toI32`; `i32 as c_int` and `u32 as uid_t` are
the identity). -/
def siginfo.into (s : siginfo) : signal_siginfo where
  si_signo := toI32 s.ssi_signo
  si_errno := s.ssi_errno
  si_code := s.ssi_code
  pid := toI32 s.ssi_pid
  uid := s.ssi_uid
  status := s.ssi_status

/-- The all-zero buffer (used to instantiate universally quantified
buffers at a concrete input). -/
def zeroBuf : Nat → Nat := fun _ => 0

end Signalfd

namespace Signalfd

/-- The inverse layout mapping. Modelled from the spec: the repository has
no encoder; §3 and §8 define the layout mapping whose reflexivity is
claimed, so `encode` serializes the sixteen fields little-endian at their
packed offsets (the exact offsets `decode` reads) and writes zero over the
trailing padding region. -/
def encode (s : siginfo) (i : Nat) : Nat :=
  if i < 4 then s.ssi_signo / 256 ^ i % 256
  else if i < 8 then u32OfI32 s.ssi_errno / 256 ^ (i - 4) % 256
  else if i < 12 then u32OfI32 s.ssi_code / 256 ^ (i - 8) % 256
  else if i < 16 then s.ssi_pid / 256 ^ (i - 12) % 256
  else if i < 20 then s.ssi_uid / 256 ^ (i - 16) % 256
  else if i < 24 then u32OfI32 s.ssi_fd / 256 ^ (i - 20) % 256
  else if i < 28 then s.ssi_tid / 256 ^ (i - 24) % 256
  else if i < 32 then s.ssi_band / 256 ^ (i - 28) % 256
  else if i < 36 then s.ssi_overrun / 256 ^ (i - 32) % 256
  else if i < 40 then s.ssi_trapno / 256 ^ (i - 36) % 256
  else if i < 44 then u32OfI32 s.ssi_status / 256 ^ (i - 40) % 256
  else if i < 48 then u32OfI32 s.ssi_int / 256 ^ (i - 44) % 256
  else if i < 56 then s.ssi_ptr / 256 ^ (i - 48) % 256
  else if i < 64 then s.ssi_utime / 256 ^ (i - 56) % 256
  else if i < 72 then s.ssi_stime / 256 ^ (i - 64) % 256
  else if i < 80 then s.ssi_addr / 256 ^ (i - 72) % 256
  else 0

/-- A well-formed wire buffer. Modelled from the spec: §6 calls the
128-byte record a stable binary contract whose bytes are produced by the
kernel; every cell holds one byte and the region past the declared record
(the padding the kernel zeroes) is zero. -/
def wellFormed (buf : Nat → Nat) : Prop :=
  (∀ i, i < SIGINFO_SIZE → buf i < 256) ∧
  (∀ i, sizeOfSiginfo ≤ i → i < SIGINFO_SIZE → buf i = 0)

lemma readLE_congr (buf1 buf2 : Nat → Nat) (off n : Nat)
    (h : ∀ j, j < n → buf1 (off + j) = buf2 (off + j)) :
    readLE buf1 off n = readLE buf2 off n := by
  induction n generalizing off with
  | zero => rfl
  | succ n ih =>
      have h0 : buf1 off = buf2 off := by simpa using h 0 (by omega)
      have ih' := ih (off + 1) (fun j hj => by
        have hj' := h (j + 1) (by omega)
        have e : off + (j + 1) = off + 1 + j := by omega
        rwa [e] at hj')
      unfold readLE
      rw [h0, ih']

lemma readLE_lt (buf : Nat → Nat) (off n : Nat) : readLE buf off n < 256 ^ n := by
  induction n generalizing off with
  | zero => simp [readLE]
  | succ n ih =>
      have h1 : buf off % 256 < 256 := Nat.mod_lt _ (by omega)
      have h2 := ih (off + 1)
      have e : 256 ^ (n + 1) = 256 * 256 ^ n := by ring
      unfold readLE
      rw [e]
      calc buf off % 256 + 256 * readLE buf (off + 1) n
          < 256 * (readLE buf (off + 1) n + 1) := by omega
        _ ≤ 256 * 256 ^ n := Nat.mul_le_mul_left 256 h2

lemma readLE_byte (buf : Nat → Nat) (off n k : Nat) (hk : k < n)
    (hb : ∀ j, j < n → buf (off + j) < 256) :
    readLE buf off n / 256 ^ k % 256 = buf (off + k) := by
  induction n generalizing off k with
  | zero => omega
  | succ n ih =>
      have hoff : buf off < 256 := by simpa using hb 0 (by omega)
      cases k with
      | zero =>
          unfold readLE
          simp [Nat.add_mul_mod_self_left, Nat.mod_eq_of_lt hoff]
      | succ k =>
          unfold readLE
          have e : 256 ^ (k + 1) = 256 * 256 ^ k := by ring
          rw [e, ← Nat.div_div_eq_div_mul]
          have hdiv : (buf off % 256 + 256 * readLE buf (off + 1) n) / 256
              = readLE buf (off + 1) n := by
            rw [Nat.add_mul_div_left _ _ (by omega : 0 < 256),
              Nat.div_eq_of_lt (Nat.mod_lt _ (by omega)), Nat.zero_add]
          rw [hdiv]
          have hrec := ih (off + 1) k (by omega) (fun j hj => by
            have hb' := hb (j + 1) (by omega)
            have e2 : off + (j + 1) = off + 1 + j := by omega
            rwa [e2] at hb')
          have e3 : off + (k + 1) = off + 1 + k := by omega
          rw [e3]
          exact hrec

lemma toI32_u32_roundtrip (x : Nat) (hx : x < 2 ^ 32) : u32OfI32 (toI32 x) = x := by
  unfold u32OfI32 toI32
  have h32 : (2 : Int) ^ 32 = 4294967296 := by norm_num
  have hx' : x < 4294967296 := by omega
  split
  · rw [h32]; omega
  · rw [h32]; omega

lemma field_byte (buf : Nat → Nat) (hb : ∀ i, i < 128 → buf i < 256)
    (off n k : Nat) (hk : k < n) (hoffn : off + n ≤ 128) :
    readLE buf off n / 256 ^ k % 256 = buf (off + k) :=
  readLE_byte buf off n k hk (fun j hj => hb (off + j) (by omega))

lemma field_byte_i32 (buf : Nat → Nat) (hb : ∀ i, i < 128 → buf i < 256)
    (off k : Nat) (hk : k < 4) (hoffn : off + 4 ≤ 128) :
    u32OfI32 (toI32 (readLE buf off 4)) / 256 ^ k % 256 = buf (off + k) := by
  rw [toI32_u32_roundtrip _ (lt_of_lt_of_le (readLE_lt buf off 4) (by norm_num))]
  exact field_byte buf hb off 4 k hk hoffn

end Signalfd

namespace Signalfd

/-- C1: the in-memory size of the packed `siginfo` struct plus the fixed
padding constant `SIGINFO_PADDING` equals exactly the wire size
`SIGINFO_SIZE` of 128 bytes. -/
theorem siginfo_size_plus_padding_eq_wire_size :
    sizeOfSiginfo + SIGINFO_PADDING = SIGINFO_SIZE ∧ SIGINFO_SIZE = 128 := by
  decide

/-- C2: `read_signal` classification — a full 128-byte read yields
`Ok(Some(decode buf))`, an `EAGAIN` failure yields `Ok(None)`, and any
other error is propagated unchanged as `Err`. -/
theorem read_signal_classification (buf : Nat → Nat) (e : Error) :
    read_signal (Except.ok SIGINFO_SIZE) buf = .ok (some (decode buf)) ∧
    read_signal (Except.error (Error.Sys EAGAIN)) buf = .ok none ∧
    (e ≠ Error.Sys EAGAIN → read_signal (Except.error e) buf = .err e) := by
  refine ⟨by simp [read_signal], by simp [read_signal], fun h => by simp [read_signal, h]⟩

/-- C2 witness: the propagation case at a concrete non-EAGAIN error. -/
theorem read_signal_classification_witness :
    read_signal (Except.error (Error.Sys 5)) zeroBuf = .err (Error.Sys 5) :=
  (read_signal_classification zeroBuf (Error.Sys 5)).2.2 (by decide)

/-- C4: a successful underlying read of any byte count other than the
full record size hits the `unreachable!` panic branch (not a recoverable
error), and under the kernel-contract precondition that a successful read
returns the full record size, the panic branch is never taken. -/
theorem read_signal_partial_read_panics (r : Except Error Nat) (buf : Nat → Nat)
    (hkernel : ∀ n, r = Except.ok n → n = SIGINFO_SIZE) :
    read_signal r buf ≠ .panicked ∧
    ∀ n, n ≠ SIGINFO_SIZE → read_signal (Except.ok n) buf = .panicked := by
  constructor
  · cases r with
    | ok n =>
        have hn := hkernel n rfl
        simp [read_signal, hn]
    | error e =>
        by_cases he : e = Error.Sys EAGAIN <;> simp [read_signal, he]
  · intro n hn
    simp [read_signal, hn]

/-- C4 witness: a full-size successful read does not panic. -/
theorem read_signal_partial_read_panics_witness :
    read_signal (Except.ok SIGINFO_SIZE) zeroBuf ≠ .panicked :=
  (read_signal_partial_read_panics (Except.ok SIGINFO_SIZE) zeroBuf
    (fun _ h => (Except.ok.inj h).symm)).1

/-- C5: the iterator step yields the record when `read_signal` returns
`Ok(Some(record))`, and returns `None` both when `read_signal` returns
`Ok(None)` and when it returns any `Err`, so the two are
indistinguishable to the iterating caller. -/
theorem next_step (r : Except Error Nat) (buf : Nat → Nat) :
    (∀ sig, read_signal r buf = .ok (some sig) → next r buf = some (some sig)) ∧
    (read_signal r buf = .ok none → next r buf = some none) ∧
    (∀ e, read_signal r buf = .err e → next r buf = some none) := by
  refine ⟨fun sig h => ?_, fun h => ?_, fun e h => ?_⟩ <;> simp [next, h]

/-- C5 witness: the would-block case at a concrete input. -/
theorem next_step_witness :
    next (Except.error (Error.Sys EAGAIN)) zeroBuf = some none :=
  (next_step (Except.error (Error.Sys EAGAIN)) zeroBuf).2.1 (by decide)

/-- C6: dropping a `SignalFd` invokes the close primitive exactly once,
on the owned descriptor; the drop result is `()` whatever the close
outcome, and two different close outcomes give the identical drop
behaviour (the close error is discarded, with no panic path). -/
theorem drop_closes_once_discards_error (s : SignalFd) (r r' : Except Error Unit) :
    (dropFd s r).2 = [s.fd] ∧ (dropFd s r).1 = () ∧ dropFd s r = dropFd s r' :=
  ⟨rfl, rfl, rfl⟩

/-- C7: the conversion into the generic signal-information shape copies
exactly the signal number, errno, code, pid, uid and status fields (with
the source's casts) and depends on no other field: two records agreeing
on those six fields convert to the same value. -/
theorem into_copies_six_fields (s t : siginfo)
    (h1 : s.ssi_signo = t.ssi_signo) (h2 : s.ssi_errno = t.ssi_errno)
    (h3 : s.ssi_code = t.ssi_code) (h4 : s.ssi_pid = t.ssi_pid)
    (h5 : s.ssi_uid = t.ssi_uid) (h6 : s.ssi_status = t.ssi_status) :
    siginfo.into s = siginfo.into t ∧
    (siginfo.into s).si_signo = toI32 s.ssi_signo ∧
    (siginfo.into s).si_errno = s.ssi_errno ∧
    (siginfo.into s).si_code = s.ssi_code ∧
    (siginfo.into s).pid = toI32 s.ssi_pid ∧
    (siginfo.into s).uid = s.ssi_uid ∧
    (siginfo.into s).status = s.ssi_status := by
  refine ⟨?_, rfl, rfl, rfl, rfl, rfl, rfl⟩
  simp [siginfo.into, h1, h2, h3, h4, h5, h6]

/-- C7 witness: two records equal on the six retained fields but
different in every dropped field convert identically. -/
theorem into_copies_six_fields_witness :
    siginfo.into ⟨1, 2, 3, 4, 5, 0, 0, 0, 0, 0, 6, 0, 0, 0, 0, 0⟩ =
    siginfo.into ⟨1, 2, 3, 4, 5, 9, 9, 9, 9, 9, 6, 9, 9, 9, 9, 9⟩ :=
  (into_copies_six_fields _ _ rfl rfl rfl rfl rfl rfl).1

/-- C8: `set_mask` invokes the syscall on the stored descriptor (not the
create-new sentinel), leaves the handle unchanged, returns `Ok(())` when
the syscall succeeds and the syscall's error otherwise. -/
theorem set_mask_frame (s : SignalFd) (syscall : Int → Except Error Int) :
    (set_mask s syscall).2.2 = s.fd ∧
    (set_mask s syscall).2.1 = s ∧
    (∀ newfd, syscall s.fd = Except.ok newfd → (set_mask s syscall).1 = Except.ok ()) ∧
    (∀ e, syscall s.fd = Except.error e → (set_mask s syscall).1 = Except.error e) := by
  refine ⟨rfl, rfl, fun newfd h => ?_, fun e h => ?_⟩ <;> simp [set_mask, h, Except.map]

/-- C8 witness: a successful syscall at a concrete handle. -/
theorem set_mask_frame_witness :
    (set_mask ⟨3⟩ (fun _ => Except.ok 3)).1 = Except.ok () :=
  (set_mask_frame ⟨3⟩ (fun _ => Except.ok 3)).2.2.1 3 rfl

/-- C9: decoding the all-zero 128-byte buffer yields the record whose
sixteen fields are all zero. -/
theorem decode_zero_buffer :
    decode zeroBuf =
      { ssi_signo := 0, ssi_errno := 0, ssi_code := 0, ssi_pid := 0,
        ssi_uid := 0, ssi_fd := 0, ssi_tid := 0, ssi_band := 0,
        ssi_overrun := 0, ssi_trapno := 0, ssi_status := 0, ssi_int := 0,
        ssi_ptr := 0, ssi_utime := 0, ssi_stime := 0, ssi_addr := 0 } := by
  decide

/-- C10: decoding reads only the first `sizeOfSiginfo` (= 80) bytes: two
buffers agreeing there decode to equal records, so the 48 trailing
padding bytes never influence the result. -/
theorem decode_depends_only_on_struct_bytes (buf1 buf2 : Nat → Nat)
    (h : ∀ i, i < sizeOfSiginfo → buf1 i = buf2 i) :
    decode buf1 = decode buf2 := by
  have h80 : sizeOfSiginfo = 80 := by decide
  have hc : ∀ off n, off + n ≤ 80 → readLE buf1 off n = readLE buf2 off n := by
    intro off n hoffn
    exact readLE_congr buf1 buf2 off n (fun j hj => h (off + j) (by omega))
  simp only [decode, siginfo.mk.injEq]
  exact ⟨hc 0 4 (by omega), congrArg toI32 (hc 4 4 (by omega)),
    congrArg toI32 (hc 8 4 (by omega)), hc 12 4 (by omega), hc 16 4 (by omega),
    congrArg toI32 (hc 20 4 (by omega)), hc 24 4 (by omega), hc 28 4 (by omega),
    hc 32 4 (by omega), hc 36 4 (by omega), congrArg toI32 (hc 40 4 (by omega)),
    congrArg toI32 (hc 44 4 (by omega)), hc 48 8 (by omega), hc 56 8 (by omega),
    hc 64 8 (by omega), hc 72 8 (by omega)⟩

/-- C10 witness: a buffer differing from the all-zero buffer only in the
padding region decodes to the same record. -/
theorem decode_depends_only_on_struct_bytes_witness :
    decode zeroBuf = decode (fun i => if i < 80 then 0 else 7) :=
  decode_depends_only_on_struct_bytes zeroBuf (fun i => if i < 80 then 0 else 7)
    (fun i hi => by
      have h80 : sizeOfSiginfo = 80 := by decide
      have : i < 80 := by omega
      simp [zeroBuf, this])

end Signalfd

namespace Signalfd

lemma encode_signo (s : siginfo) (i : Nat) (hlo : 0 ≤ i) (hhi : i < 4) :
    encode s i = s.ssi_signo / 256 ^ i % 256 := by
  unfold encode
  rw [if_pos hhi]

lemma encode_errno (s : siginfo) (i : Nat) (hlo : 4 ≤ i) (hhi : i < 8) :
    encode s i = u32OfI32 s.ssi_errno / 256 ^ (i - 4) % 256 := by
  unfold encode
  rw [if_neg (show ¬ i < 4 by omega),
    if_pos hhi]

lemma encode_code (s : siginfo) (i : Nat) (hlo : 8 ≤ i) (hhi : i < 12) :
    encode s i = u32OfI32 s.ssi_code / 256 ^ (i - 8) % 256 := by
  unfold encode
  rw [if_neg (show ¬ i < 4 by omega),
    if_neg (show ¬ i < 8 by omega),
    if_pos hhi]

lemma encode_pid (s : siginfo) (i : Nat) (hlo : 12 ≤ i) (hhi : i < 16) :
    encode s i = s.ssi_pid / 256 ^ (i - 12) % 256 := by
  unfold encode
  rw [if_neg (show ¬ i < 4 by omega),
    if_neg (show ¬ i < 8 by omega),
    if_neg (show ¬ i < 12 by omega),
    if_pos hhi]

lemma encode_uid (s : siginfo) (i : Nat) (hlo : 16 ≤ i) (hhi : i < 20) :
    encode s i = s.ssi_uid / 256 ^ (i - 16) % 256 := by
  unfold encode
  rw [if_neg (show ¬ i < 4 by omega),
    if_neg (show ¬ i < 8 by omega),
    if_neg (show ¬ i < 12 by omega),
    if_neg (show ¬ i < 16 by omega),
    if_pos hhi]

lemma encode_fd (s : siginfo) (i : Nat) (hlo : 20 ≤ i) (hhi : i < 24) :
    encode s i = u32OfI32 s.ssi_fd / 256 ^ (i - 20) % 256 := by
  unfold encode
  rw [if_neg (show ¬ i < 4 by omega),
    if_neg (show ¬ i < 8 by omega),
    if_neg (show ¬ i < 12 by omega),
    if_neg (show ¬ i < 16 by omega),
    if_neg (show ¬ i < 20 by omega),
    if_pos hhi]

lemma encode_tid (s : siginfo) (i : Nat) (hlo : 24 ≤ i) (hhi : i < 28) :
    encode s i = s.ssi_tid / 256 ^ (i - 24) % 256 := by
  unfold encode
  rw [if_neg (show ¬ i < 4 by omega),
    if_neg (show ¬ i < 8 by omega),
    if_neg (show ¬ i < 12 by omega),
    if_neg (show ¬ i < 16 by omega),
    if_neg (show ¬ i < 20 by omega),
    if_neg (show ¬ i < 24 by omega),
    if_pos hhi]

lemma encode_band (s : siginfo) (i : Nat) (hlo : 28 ≤ i) (hhi : i < 32) :
    encode s i = s.ssi_band / 256 ^ (i - 28) % 256 := by
  unfold encode
  rw [if_neg (show ¬ i < 4 by omega),
    if_neg (show ¬ i < 8 by omega),
    if_neg (show ¬ i < 12 by omega),
    if_neg (show ¬ i < 16 by omega),
    if_neg (show ¬ i < 20 by omega),
    if_neg (show ¬ i < 24 by omega),
    if_neg (show ¬ i < 28 by omega),
    if_pos hhi]

lemma encode_overrun (s : siginfo) (i : Nat) (hlo : 32 ≤ i) (hhi : i < 36) :
    encode s i = s.ssi_overrun / 256 ^ (i - 32) % 256 := by
  unfold encode
  rw [if_neg (show ¬ i < 4 by omega),
    if_neg (show ¬ i < 8 by omega),
    if_neg (show ¬ i < 12 by omega),
    if_neg (show ¬ i < 16 by omega),
    if_neg (show ¬ i < 20 by omega),
    if_neg (show ¬ i < 24 by omega),
    if_neg (show ¬ i < 28 by omega),
    if_neg (show ¬ i < 32 by omega),
    if_pos hhi]

lemma encode_trapno (s : siginfo) (i : Nat) (hlo : 36 ≤ i) (hhi : i < 40) :
    encode s i = s.ssi_trapno / 256 ^ (i - 36) % 256 := by
  unfold encode
  rw [if_neg (show ¬ i < 4 by omega),
    if_neg (show ¬ i < 8 by omega),
    if_neg (show ¬ i < 12 by omega),
    if_neg (show ¬ i < 16 by omega),
    if_neg (show ¬ i < 20 by omega),
    if_neg (show ¬ i < 24 by omega),
    if_neg (show ¬ i < 28 by omega),
    if_neg (show ¬ i < 32 by omega),
    if_neg (show ¬ i < 36 by omega),
    if_pos hhi]

lemma encode_status (s : siginfo) (i : Nat) (hlo : 40 ≤ i) (hhi : i < 44) :
    encode s i = u32OfI32 s.ssi_status / 256 ^ (i - 40) % 256 := by
  unfold encode
  rw [if_neg (show ¬ i < 4 by omega),
    if_neg (show ¬ i < 8 by omega),
    if_neg (show ¬ i < 12 by omega),
    if_neg (show ¬ i < 16 by omega),
    if_neg (show ¬ i < 20 by omega),
    if_neg (show ¬ i < 24 by omega),
    if_neg (show ¬ i < 28 by omega),
    if_neg (show ¬ i < 32 by omega),
    if_neg (show ¬ i < 36 by omega),
    if_neg (show ¬ i < 40 by omega),
    if_pos hhi]

lemma encode_intf (s : siginfo) (i : Nat) (hlo : 44 ≤ i) (hhi : i < 48) :
    encode s i = u32OfI32 s.ssi_int / 256 ^ (i - 44) % 256 := by
  unfold encode
  rw [if_neg (show ¬ i < 4 by omega),
    if_neg (show ¬ i < 8 by omega),
    if_neg (show ¬ i < 12 by omega),
    if_neg (show ¬ i < 16 by omega),
    if_neg (show ¬ i < 20 by omega),
    if_neg (show ¬ i < 24 by omega),
    if_neg (show ¬ i < 28 by omega),
    if_neg (show ¬ i < 32 by omega),
    if_neg (show ¬ i < 36 by omega),
    if_neg (show ¬ i < 40 by omega),
    if_neg (show ¬ i < 44 by omega),
    if_pos hhi]

lemma encode_ptr (s : siginfo) (i : Nat) (hlo : 48 ≤ i) (hhi : i < 56) :
    encode s i = s.ssi_ptr / 256 ^ (i - 48) % 256 := by
  unfold encode
  rw [if_neg (show ¬ i < 4 by omega),
    if_neg (show ¬ i < 8 by omega),
    if_neg (show ¬ i < 12 by omega),
    if_neg (show ¬ i < 16 by omega),
    if_neg (show ¬ i < 20 by omega),
    if_neg (show ¬ i < 24 by omega),
    if_neg (show ¬ i < 28 by omega),
    if_neg (show ¬ i < 32 by omega),
    if_neg (show ¬ i < 36 by omega),
    if_neg (show ¬ i < 40 by omega),
    if_neg (show ¬ i < 44 by omega),
    if_neg (show ¬ i < 48 by omega),
    if_pos hhi]

lemma encode_utime (s : siginfo) (i : Nat) (hlo : 56 ≤ i) (hhi : i < 64) :
    encode s i = s.ssi_utime / 256 ^ (i - 56) % 256 := by
  unfold encode
  rw [if_neg (show ¬ i < 4 by omega),
    if_neg (show ¬ i < 8 by omega),
    if_neg (show ¬ i < 12 by omega),
    if_neg (show ¬ i < 16 by omega),
    if_neg (show ¬ i < 20 by omega),
    if_neg (show ¬ i < 24 by omega),
    if_neg (show ¬ i < 28 by omega),
    if_neg (show ¬ i < 32 by omega),
    if_neg (show ¬ i < 36 by omega),
    if_neg (show ¬ i < 40 by omega),
    if_neg (show ¬ i < 44 by omega),
    if_neg (show ¬ i < 48 by omega),
    if_neg (show ¬ i < 56 by omega),
    if_pos hhi]

lemma encode_stime (s : siginfo) (i : Nat) (hlo : 64 ≤ i) (hhi : i < 72) :
    encode s i = s.ssi_stime / 256 ^ (i - 64) % 256 := by
  unfold encode
  rw [if_neg (show ¬ i < 4 by omega),
    if_neg (show ¬ i < 8 by omega),
    if_neg (show ¬ i < 12 by omega),
    if_neg (show ¬ i < 16 by omega),
    if_neg (show ¬ i < 20 by omega),
    if_neg (show ¬ i < 24 by omega),
    if_neg (show ¬ i < 28 by omega),
    if_neg (show ¬ i < 32 by omega),
    if_neg (show ¬ i < 36 by omega),
    if_neg (show ¬ i < 40 by omega),
    if_neg (show ¬ i < 44 by omega),
    if_neg (show ¬ i < 48 by omega),
    if_neg (show ¬ i < 56 by omega),
    if_neg (show ¬ i < 64 by omega),
    if_pos hhi]

lemma encode_addr (s : siginfo) (i : Nat) (hlo : 72 ≤ i) (hhi : i < 80) :
    encode s i = s.ssi_addr / 256 ^ (i - 72) % 256 := by
  unfold encode
  rw [if_neg (show ¬ i < 4 by omega),
    if_neg (show ¬ i < 8 by omega),
    if_neg (show ¬ i < 12 by omega),
    if_neg (show ¬ i < 16 by omega),
    if_neg (show ¬ i < 20 by omega),
    if_neg (show ¬ i < 24 by omega),
    if_neg (show ¬ i < 28 by omega),
    if_neg (show ¬ i < 32 by omega),
    if_neg (show ¬ i < 36 by omega),
    if_neg (show ¬ i < 40 by omega),
    if_neg (show ¬ i < 44 by omega),
    if_neg (show ¬ i < 48 by omega),
    if_neg (show ¬ i < 56 by omega),
    if_neg (show ¬ i < 64 by omega),
    if_neg (show ¬ i < 72 by omega),
    if_pos hhi]

lemma encode_pad (s : siginfo) (i : Nat) (hlo : 80 ≤ i) : encode s i = 0 := by
  unfold encode
  rw [if_neg (show ¬ i < 4 by omega),
    if_neg (show ¬ i < 8 by omega),
    if_neg (show ¬ i < 12 by omega),
    if_neg (show ¬ i < 16 by omega),
    if_neg (show ¬ i < 20 by omega),
    if_neg (show ¬ i < 24 by omega),
    if_neg (show ¬ i < 28 by omega),
    if_neg (show ¬ i < 32 by omega),
    if_neg (show ¬ i < 36 by omega),
    if_neg (show ¬ i < 40 by omega),
    if_neg (show ¬ i < 44 by omega),
    if_neg (show ¬ i < 48 by omega),
    if_neg (show ¬ i < 56 by omega),
    if_neg (show ¬ i < 64 by omega),
    if_neg (show ¬ i < 72 by omega),
    if_neg (show ¬ i < 80 by omega)]

/-- C3: for every well-formed 128-byte buffer, re-encoding the decoded
record reproduces the buffer byte for byte: `encode (decode buf) i = buf i`
for all `i < SIGINFO_SIZE`. -/
theorem encode_decode_roundtrip (buf : Nat → Nat) (h : wellFormed buf) :
    ∀ i, i < SIGINFO_SIZE → encode (decode buf) i = buf i := by
  obtain ⟨hb, hz⟩ := h
  intro i hi
  have hi' : i < 128 := hi
  have hb' : ∀ j, j < 128 → buf j < 256 := hb
  have hcase : 0 ≤ i ∧ i < 4 ∨
      4 ≤ i ∧ i < 8 ∨
      8 ≤ i ∧ i < 12 ∨
      12 ≤ i ∧ i < 16 ∨
      16 ≤ i ∧ i < 20 ∨
      20 ≤ i ∧ i < 24 ∨
      24 ≤ i ∧ i < 28 ∨
      28 ≤ i ∧ i < 32 ∨
      32 ≤ i ∧ i < 36 ∨
      36 ≤ i ∧ i < 40 ∨
      40 ≤ i ∧ i < 44 ∨
      44 ≤ i ∧ i < 48 ∨
      48 ≤ i ∧ i < 56 ∨
      56 ≤ i ∧ i < 64 ∨
      64 ≤ i ∧ i < 72 ∨
      72 ≤ i ∧ i < 80 ∨
      80 ≤ i := by omega
  rcases hcase with ⟨hlo, hhi⟩ | ⟨hlo, hhi⟩ | ⟨hlo, hhi⟩ | ⟨hlo, hhi⟩ | ⟨hlo, hhi⟩ | ⟨hlo, hhi⟩ | ⟨hlo, hhi⟩ | ⟨hlo, hhi⟩ | ⟨hlo, hhi⟩ | ⟨hlo, hhi⟩ | ⟨hlo, hhi⟩ | ⟨hlo, hhi⟩ | ⟨hlo, hhi⟩ | ⟨hlo, hhi⟩ | ⟨hlo, hhi⟩ | ⟨hlo, hhi⟩ | hlo
  · rw [encode_signo (decode buf) i hlo hhi]
    have hp : (decode buf).ssi_signo = readLE buf 0 4 := rfl
    rw [hp]
    have hfb := field_byte buf hb' 0 4 (i - 0) (by omega) (by omega)
    have e : 0 + (i - 0) = i := by omega
    rwa [e] at hfb
  · rw [encode_errno (decode buf) i hlo hhi]
    have hp : (decode buf).ssi_errno = toI32 (readLE buf 4 4) := rfl
    rw [hp]
    have hfb := field_byte_i32 buf hb' 4 (i - 4) (by omega) (by omega)
    have e : 4 + (i - 4) = i := by omega
    rwa [e] at hfb
  · rw [encode_code (decode buf) i hlo hhi]
    have hp : (decode buf).ssi_code = toI32 (readLE buf 8 4) := rfl
    rw [hp]
    have hfb := field_byte_i32 buf hb' 8 (i - 8) (by omega) (by omega)
    have e : 8 + (i - 8) = i := by omega
    rwa [e] at hfb
  · rw [encode_pid (decode buf) i hlo hhi]
    have hp : (decode buf).ssi_pid = readLE buf 12 4 := rfl
    rw [hp]
    have hfb := field_byte buf hb' 12 4 (i - 12) (by omega) (by omega)
    have e : 12 + (i - 12) = i := by omega
    rwa [e] at hfb
  · rw [encode_uid (decode buf) i hlo hhi]
    have hp : (decode buf).ssi_uid = readLE buf 16 4 := rfl
    rw [hp]
    have hfb := field_byte buf hb' 16 4 (i - 16) (by omega) (by omega)
    have e : 16 + (i - 16) = i := by omega
    rwa [e] at hfb
  · rw [encode_fd (decode buf) i hlo hhi]
    have hp : (decode buf).ssi_fd = toI32 (readLE buf 20 4) := rfl
    rw [hp]
    have hfb := field_byte_i32 buf hb' 20 (i - 20) (by omega) (by omega)
    have e : 20 + (i - 20) = i := by omega
    rwa [e] at hfb
  · rw [encode_tid (decode buf) i hlo hhi]
    have hp : (decode buf).ssi_tid = readLE buf 24 4 := rfl
    rw [hp]
    have hfb := field_byte buf hb' 24 4 (i - 24) (by omega) (by omega)
    have e : 24 + (i - 24) = i := by omega
    rwa [e] at hfb
  · rw [encode_band (decode buf) i hlo hhi]
    have hp : (decode buf).ssi_band = readLE buf 28 4 := rfl
    rw [hp]
    have hfb := field_byte buf hb' 28 4 (i - 28) (by omega) (by omega)
    have e : 28 + (i - 28) = i := by omega
    rwa [e] at hfb
  · rw [encode_overrun (decode buf) i hlo hhi]
    have hp : (decode buf).ssi_overrun = readLE buf 32 4 := rfl
    rw [hp]
    have hfb := field_byte buf hb' 32 4 (i - 32) (by omega) (by omega)
    have e : 32 + (i - 32) = i := by omega
    rwa [e] at hfb
  · rw [encode_trapno (decode buf) i hlo hhi]
    have hp : (decode buf).ssi_trapno = readLE buf 36 4 := rfl
    rw [hp]
    have hfb := field_byte buf hb' 36 4 (i - 36) (by omega) (by omega)
    have e : 36 + (i - 36) = i := by omega
    rwa [e] at hfb
  · rw [encode_status (decode buf) i hlo hhi]
    have hp : (decode buf).ssi_status = toI32 (readLE buf 40 4) := rfl
    rw [hp]
    have hfb := field_byte_i32 buf hb' 40 (i - 40) (by omega) (by omega)
    have e : 40 + (i - 40) = i := by omega
    rwa [e] at hfb
  · rw [encode_intf (decode buf) i hlo hhi]
    have hp : (decode buf).ssi_int = toI32 (readLE buf 44 4) := rfl
    rw [hp]
    have hfb := field_byte_i32 buf hb' 44 (i - 44) (by omega) (by omega)
    have e : 44 + (i - 44) = i := by omega
    rwa [e] at hfb
  · rw [encode_ptr (decode buf) i hlo hhi]
    have hp : (decode buf).ssi_ptr = readLE buf 48 8 := rfl
    rw [hp]
    have hfb := field_byte buf hb' 48 8 (i - 48) (by omega) (by omega)
    have e : 48 + (i - 48) = i := by omega
    rwa [e] at hfb
  · rw [encode_utime (decode buf) i hlo hhi]
    have hp : (decode buf).ssi_utime = readLE buf 56 8 := rfl
    rw [hp]
    have hfb := field_byte buf hb' 56 8 (i - 56) (by omega) (by omega)
    have e : 56 + (i - 56) = i := by omega
    rwa [e] at hfb
  · rw [encode_stime (decode buf) i hlo hhi]
    have hp : (decode buf).ssi_stime = readLE buf 64 8 := rfl
    rw [hp]
    have hfb := field_byte buf hb' 64 8 (i - 64) (by omega) (by omega)
    have e : 64 + (i - 64) = i := by omega
    rwa [e] at hfb
  · rw [encode_addr (decode buf) i hlo hhi]
    have hp : (decode buf).ssi_addr = readLE buf 72 8 := rfl
    rw [hp]
    have hfb := field_byte buf hb' 72 8 (i - 72) (by omega) (by omega)
    have e : 72 + (i - 72) = i := by omega
    rwa [e] at hfb
  · rw [encode_pad (decode buf) i hlo]
    have h80 : sizeOfSiginfo = 80 := by decide
    exact (hz i (by omega) hi').symm

/-- C3 witness: the round trip at the all-zero buffer, byte 5. -/
theorem encode_decode_roundtrip_witness :
    encode (decode zeroBuf) 5 = zeroBuf 5 :=
  encode_decode_roundtrip zeroBuf
    ⟨fun i _ => by norm_num [zeroBuf], fun i _ _ => rfl⟩ 5 (by decide)

end Signalfd
